import Mathlib

/-!
Verification of the cpool thread-pool library (cpool.c / cpool.h).

We shallowly embed the pool state and the effect of each operation as pure
Lean functions over an explicit state.  Machine-level concerns (mutexes,
condition-variable blocking) are modelled by taking the state observed at
the moment a wait loop exits, with the loop-exit condition appearing as a
hypothesis, and by an event trace for the worker-loop body.  Futures live
in an explicit heap of allocated ids so that creation/destruction is
observable.
-/

/-- A job slot of the ring buffer (`cpool_work`): callable identity,
argument identity, and the optional worker-side future reference. -/
structure cpool_work where
  func : Nat
  data : Nat
  future : Option Nat
deriving DecidableEq, Repr

instance : Inhabited cpool_work := ⟨⟨0, 0, none⟩⟩

/-- The mutable fields of `struct cpool` that the claims are about.
`jobs` is the ring-buffer array, modelled as a total function from index
to slot contents; `job_first` is the head index, `job_count` the number
of queued jobs, `max_jobs` the capacity; `nb_working` counts workers
currently executing a callable; `stop` is the stop flag. -/
structure CpoolState where
  nb_workers : Nat
  max_jobs : Nat
  jobs : Nat → cpool_work
  job_first : Nat
  job_count : Nat
  nb_working : Nat
  stop : Bool

/-- Heap of future objects: allocated ids (`live`), a fresh-id counter,
and each future's done flag (`struct cpool_future`'s `flag`). -/
structure Heap where
  nextId : Nat
  live : List Nat
  flag : Nat → Bool

/-- Array store: write slot `i` of the ring buffer. -/
def setJob (jobs : Nat → cpool_work) (i : Nat) (w : cpool_work) : Nat → cpool_work :=
  fun k => if k = i then w else jobs k

/-- Flag store: write the done flag of future `i`. -/
def setFlag (fl : Nat → Bool) (i : Nat) (b : Bool) : Nat → Bool :=
  fun k => if k = i then b else fl k

/-- `cpool_future_create`: on success returns a fresh future id with
`flag = 0` and registers it as live; on allocation / init failure
returns no future and leaves the heap unchanged.  `allocOk` is the
oracle deciding whether `malloc`/`mtx_init`/`cnd_init` all succeed. -/
def cpool_future_create (h : Heap) (allocOk : Bool) : Option Nat × Heap :=
  if allocOk then
    (some h.nextId,
     { nextId := h.nextId + 1,
       live := h.nextId :: h.live,
       flag := setFlag h.flag h.nextId false })
  else (none, h)

/-- `cpool_future_destroy`: deallocates the future object. -/
def cpool_future_destroy (h : Heap) (f : Nat) : Heap :=
  { h with live := h.live.erase f }

/-- Result of `cpool_enqueue`: return value, pool state, future heap, and
the value stored through the caller's `future` out-pointer (meaningful
only when the caller passed a non-NULL `future`, i.e. `wantsFuture`). -/
structure EnqResult where
  ret : Nat
  pool : CpoolState
  heap : Heap
  futureOut : Option Nat

/-- `cpool_enqueue`, taken at the moment its wait loop
(`while (job_count == max_jobs && !stop) cnd_wait(...)`) has exited:
first (before the lock) a future is created iff the caller requested one,
then under the lock the stop flag is tested; if stopped the created
future is destroyed, `*future` is nulled, and 1 is returned; otherwise
the job is written at `(job_first + job_count) % max_jobs`, `job_count`
is incremented and 0 is returned. -/
def cpool_enqueue (p : CpoolState) (h : Heap) (func data : Nat)
    (wantsFuture allocOk : Bool) : EnqResult :=
  let fut : Option Nat := if wantsFuture then (cpool_future_create h allocOk).1 else none
  let h1 : Heap := if wantsFuture then (cpool_future_create h allocOk).2 else h
  if p.stop then
    { ret := 1
      pool := p
      heap := match fut with
        | some f => cpool_future_destroy h1 f
        | none => h1
      futureOut := none }
  else
    { ret := 0
      pool := { p with
        jobs := setJob p.jobs ((p.job_first + p.job_count) % p.max_jobs)
          { func := func, data := data, future := fut }
        job_count := p.job_count + 1 }
      heap := h1
      futureOut := fut }

/-- `cpool_stop`: sets the stop flag (the broadcasts do not change state). -/
def cpool_stop (p : CpoolState) : CpoolState := { p with stop := true }

/-- The `cpool_wait` loop guard: `nb_working > 0 || job_count > 0`. -/
def cpool_wait_should_sleep (p : CpoolState) : Bool :=
  decide (p.nb_working > 0) || decide (p.job_count > 0)

/-- `cpool_wait` as observed over the sequence of pool states sampled at
each wakeup: the call returns at the first sampled state whose guard is
false, re-checking the guard on every wakeup. -/
def cpool_wait_returns (states : List CpoolState) : Option CpoolState :=
  states.find? (fun p => ! cpool_wait_should_sleep p)

/-- What a worker does at the top of its loop, observing the pool state
under the lock: sleep if the queue is empty and stop not requested;
exit if stop is requested and the queue is empty; otherwise pop the
front job and run it. -/
inductive WorkerAction where
  | wait
  | exit
  | run (j : cpool_work)
deriving DecidableEq, Repr

/-- The branch structure of `thread_func`'s locked section. -/
def worker_poll (p : CpoolState) : WorkerAction :=
  if p.job_count = 0 ∧ p.stop = false then WorkerAction.wait
  else if p.stop = true ∧ p.job_count = 0 then WorkerAction.exit
  else WorkerAction.run (p.jobs p.job_first)

/-- Pool-state update of a worker pop: advance the head modulo the
capacity, decrement `job_count`, increment `nb_working`. -/
def worker_pop_state (p : CpoolState) : CpoolState :=
  { p with
    job_first := (p.job_first + 1) % p.max_jobs
    job_count := p.job_count - 1
    nb_working := p.nb_working + 1 }

/-- The completion section of `thread_func`: re-acquire the pool lock and
decrement `nb_working`; the boolean records whether `cond_idle` is
signaled, which the code does iff the decremented count is 0. -/
def worker_complete (p : CpoolState) : CpoolState × Bool :=
  ({ p with nb_working := p.nb_working - 1 }, p.nb_working - 1 == 0)

/-- Observable events of one worker-loop iteration. -/
inductive Event where
  | popped (j : cpool_work)
  | ran (func data : Nat)
  | futureSignaled (f : Nat)
  | decWorking
deriving DecidableEq, Repr

/-- The future-completion events of a popped slot: signal the future iff
the slot carries a reference to one. -/
def futureEvents : Option Nat → List Event
  | some f => [Event.futureSignaled f]
  | none => []

/-- The ordered events of one iteration of `thread_func`'s body: after a
pop, the callable is invoked and returns, then — iff the popped slot
carried a future reference — that future's flag is set and its condition
variable signaled, then `nb_working` is decremented.  A sleeping or
exiting iteration performs none of these events. -/
def worker_iteration_events (p : CpoolState) : List Event :=
  match worker_poll p with
  | WorkerAction.run j =>
      [Event.popped j, Event.ran j.func j.data]
        ++ futureEvents j.future
        ++ [Event.decWorking]
  | _ => []

/-- Abstract contents of the ring buffer, front first. -/
def queueList (p : CpoolState) : List cpool_work :=
  (List.range p.job_count).map (fun i => p.jobs ((p.job_first + i) % p.max_jobs))

/- ### Concrete states used by the witnesses -/

def emptyHeap : Heap := { nextId := 0, live := [], flag := fun _ => false }

def poolRun : CpoolState :=
  { nb_workers := 1, max_jobs := 2, jobs := fun _ => default
    job_first := 0, job_count := 1, nb_working := 0, stop := false }

def poolStopped : CpoolState :=
  { nb_workers := 1, max_jobs := 2, jobs := fun _ => default
    job_first := 0, job_count := 1, nb_working := 0, stop := true }

def poolBusy : CpoolState :=
  { nb_workers := 1, max_jobs := 2, jobs := fun _ => default
    job_first := 0, job_count := 0, nb_working := 1, stop := false }

def poolIdle : CpoolState :=
  { nb_workers := 1, max_jobs := 2, jobs := fun _ => default
    job_first := 0, job_count := 0, nb_working := 0, stop := false }

def poolWithFuture : CpoolState :=
  { nb_workers := 1, max_jobs := 1, jobs := fun _ => ⟨5, 7, some 3⟩
    job_first := 0, job_count := 1, nb_working := 0, stop := false }

/- ### C10: stop is idempotent -/

/-- C10: `cpool_stop` is idempotent — running it twice from any pool
state leaves exactly the state a single run leaves: the stop flag, the
queue contents, the head and count, and all counters coincide. -/
theorem cpool_stop_idempotent (p : CpoolState) :
    cpool_stop (cpool_stop p) = cpool_stop p := rfl

/- ### C4: cpool_wait returns only on a drained pool -/

/-- C4: the `cpool_wait` guard is false exactly when `nb_working = 0` and
`job_count = 0`, and since the guard is re-checked at every wakeup, the
call returns only at a sampled state where both are zero. -/
theorem cpool_wait_only_when_drained :
    (∀ p : CpoolState,
      cpool_wait_should_sleep p = false ↔ (p.nb_working = 0 ∧ p.job_count = 0)) ∧
    (∀ (l : List CpoolState) (p : CpoolState),
      cpool_wait_returns l = some p → p.nb_working = 0 ∧ p.job_count = 0) := by
  constructor
  · intro p
    simp [cpool_wait_should_sleep]
  · intro l p hfind
    have h := List.find?_some hfind
    simp [cpool_wait_should_sleep] at h
    omega

/-- Witness for C4: over the concrete wakeup sequence
`[poolBusy, poolIdle]` the wait returns at `poolIdle`, and the theorem
yields that both counters are zero there. -/
theorem cpool_wait_only_when_drained_witness :
    poolIdle.nb_working = 0 ∧ poolIdle.job_count = 0 :=
  cpool_wait_only_when_drained.2 [poolBusy, poolIdle] poolIdle rfl

/- ### C2: enqueue after stop -/

/-- C2: any enqueue performed once the stop flag is set returns 1, leaves
the pool (head, count, all slots, counters, flag) unmodified, sets the
caller's `*future` to NULL, and destroys the future the call created at
its start, so the set of live future objects is unchanged. -/
theorem cpool_enqueue_after_stop (p : CpoolState) (h : Heap) (func data : Nat)
    (wantsFuture allocOk : Bool) (hs : p.stop = true) :
    (cpool_enqueue p h func data wantsFuture allocOk).ret = 1 ∧
    (cpool_enqueue p h func data wantsFuture allocOk).pool = p ∧
    (cpool_enqueue p h func data wantsFuture allocOk).futureOut = none ∧
    (cpool_enqueue p h func data wantsFuture allocOk).heap.live = h.live := by
  cases wantsFuture <;> cases allocOk <;>
    simp [cpool_enqueue, hs, cpool_future_create, cpool_future_destroy]

/-- Witness for C2 at the concrete stopped pool with a requested,
successfully created future. -/
theorem cpool_enqueue_after_stop_witness :
    (cpool_enqueue poolStopped emptyHeap 1 2 true true).ret = 1 ∧
    (cpool_enqueue poolStopped emptyHeap 1 2 true true).pool = poolStopped ∧
    (cpool_enqueue poolStopped emptyHeap 1 2 true true).futureOut = none ∧
    (cpool_enqueue poolStopped emptyHeap 1 2 true true).heap.live = emptyHeap.live :=
  cpool_enqueue_after_stop poolStopped emptyHeap 1 2 true true rfl

/- ### C3: the only worker exit condition -/

def poolDrainedStopped : CpoolState :=
  { nb_workers := 1, max_jobs := 2, jobs := fun _ => default
    job_first := 0, job_count := 0, nb_working := 0, stop := true }

/-- C3: a worker's locked poll exits exactly when the stop flag is set
and the queue is empty; and whenever the poll pops a job instead, the
same iteration runs that job's callable (the `ran` event occurs), so a
popped job is never abandoned. -/
theorem worker_exit_condition :
    (∀ p : CpoolState,
      worker_poll p = WorkerAction.exit ↔ (p.stop = true ∧ p.job_count = 0)) ∧
    (∀ (p : CpoolState) (j : cpool_work), worker_poll p = WorkerAction.run j →
      Event.ran j.func j.data ∈ worker_iteration_events p) := by
  constructor
  · intro p
    unfold worker_poll
    split_ifs with h1 h2
    · simp [h1.2]
    · simp [h2.1, h2.2]
    · simp
      intro hs hc
      exact h2 ⟨hs, hc⟩
  · intro p j hrun
    unfold worker_iteration_events
    rw [hrun]
    cases j.future <;> simp [futureEvents]

/-- Witness for C3: the drained stopped pool makes the poll exit, and on
`poolRun` the popped job is run within the iteration. -/
theorem worker_exit_condition_witness :
    worker_poll poolDrainedStopped = WorkerAction.exit ∧
    Event.ran (poolRun.jobs 0).func (poolRun.jobs 0).data ∈
      worker_iteration_events poolRun :=
  ⟨(worker_exit_condition.1 poolDrainedStopped).mpr (by decide),
   worker_exit_condition.2 poolRun (poolRun.jobs 0) (by decide)⟩

/- ### C5: a future is signaled only after its own job's callable returns -/

/-- C5: if a worker iteration signals future `f`, then that iteration
popped a job whose slot carries exactly the reference `f`, and in the
iteration's event order the callable's return (`ran`) strictly precedes
the future signal — so a future is never signaled before its job's
callable returns, nor by a worker completing a different job. -/
theorem future_signal_only_after_run (p : CpoolState) (f : Nat)
    (hmem : Event.futureSignaled f ∈ worker_iteration_events p) :
    ∃ j : cpool_work, worker_poll p = WorkerAction.run j ∧ j.future = some f ∧
      ∃ i k : Nat, i < k ∧
        (worker_iteration_events p).get? i = some (Event.ran j.func j.data) ∧
        (worker_iteration_events p).get? k = some (Event.futureSignaled f) := by
  unfold worker_iteration_events at hmem ⊢
  cases hp : worker_poll p with
  | wait => rw [hp] at hmem; simp at hmem
  | exit => rw [hp] at hmem; simp at hmem
  | run j =>
    rw [hp] at hmem
    simp [futureEvents] at hmem
    cases hf : j.future with
    | none => rw [hf] at hmem; simp [futureEvents] at hmem
    | some g =>
      rw [hf] at hmem
      simp [futureEvents] at hmem
      subst hmem
      refine ⟨j, rfl, hf, 1, 2, by omega, ?_, ?_⟩ <;>
        simp [futureEvents, hf]

/-- Witness for C5 at the concrete pool whose queued job carries future
reference 3. -/
theorem future_signal_only_after_run_witness :
    ∃ j : cpool_work, worker_poll poolWithFuture = WorkerAction.run j ∧
      j.future = some 3 ∧
      ∃ i k : Nat, i < k ∧
        (worker_iteration_events poolWithFuture).get? i =
          some (Event.ran j.func j.data) ∧
        (worker_iteration_events poolWithFuture).get? k =
          some (Event.futureSignaled 3) :=
  future_signal_only_after_run poolWithFuture 3 (by decide)

/- ### C7: when the completing worker signals "pool idle" -/

def poolSignalBug : CpoolState :=
  { nb_workers := 1, max_jobs := 4, jobs := fun _ => default
    job_first := 0, job_count := 3, nb_working := 1, stop := false }

/-- Counterexample to C7 as stated: with `nb_working = 1` and
`job_count = 3`, the completion code signals `cond_idle` (the decrement
reaches 0) even though the queue is not empty, so "signals iff the
decrement drops `working_count` to 0 AND the queue is empty" is false. -/
theorem worker_idle_signal_counterexample :
    ¬ (((worker_complete poolSignalBug).2 = true) ↔
        (poolSignalBug.nb_working - 1 = 0 ∧ poolSignalBug.job_count = 0)) := by
  decide

/-- C7 amended: on completion the worker decrements `nb_working` (all
other pool fields unchanged) and signals `cond_idle` exactly when the
decremented count is 0 — the queue's emptiness is not consulted. -/
theorem worker_idle_signal_amended (p : CpoolState) :
    (worker_complete p).1.nb_working = p.nb_working - 1 ∧
    (worker_complete p).2 = (p.nb_working - 1 == 0) ∧
    (worker_complete p).1.job_count = p.job_count ∧
    (worker_complete p).1.job_first = p.job_first ∧
    (worker_complete p).1.stop = p.stop ∧
    (worker_complete p).1.jobs = p.jobs :=
  ⟨rfl, rfl, rfl, rfl, rfl, rfl⟩

/- ### C8: future allocation failure degrades, the job is still enqueued -/

/-- C8: a future-requesting enqueue on a non-stopped, non-full pool whose
future allocation fails still succeeds: it returns 0, stores NULL in the
caller's `*future`, leaves the heap untouched, adds exactly one slot
(written at the tail index) whose future reference is null, and changes
no other pool state. -/
theorem enqueue_future_alloc_failure (p : CpoolState) (h : Heap) (func data : Nat)
    (hs : p.stop = false) (hc : p.job_count < p.max_jobs) :
    (cpool_enqueue p h func data true false).ret = 0 ∧
    (cpool_enqueue p h func data true false).futureOut = none ∧
    (cpool_enqueue p h func data true false).heap = h ∧
    (cpool_enqueue p h func data true false).pool.job_count = p.job_count + 1 ∧
    (cpool_enqueue p h func data true false).pool.job_first = p.job_first ∧
    (cpool_enqueue p h func data true false).pool.nb_working = p.nb_working ∧
    (cpool_enqueue p h func data true false).pool.stop = p.stop ∧
    ((cpool_enqueue p h func data true false).pool.jobs
        ((p.job_first + p.job_count) % p.max_jobs)).future = none ∧
    (∀ k, k ≠ (p.job_first + p.job_count) % p.max_jobs →
      (cpool_enqueue p h func data true false).pool.jobs k = p.jobs k) := by
  refine ⟨?_, ?_, ?_, ?_, ?_, ?_, ?_, ?_, ?_⟩ <;>
    simp [cpool_enqueue, hs, cpool_future_create, setJob]
  intro k hk
  simp [hk]

/-- Witness for C8 at the concrete running pool. -/
theorem enqueue_future_alloc_failure_witness :
    (cpool_enqueue poolRun emptyHeap 9 9 true false).ret = 0 ∧
    (cpool_enqueue poolRun emptyHeap 9 9 true false).futureOut = none ∧
    (cpool_enqueue poolRun emptyHeap 9 9 true false).pool.job_count =
      poolRun.job_count + 1 :=
  ⟨(enqueue_future_alloc_failure poolRun emptyHeap 9 9 rfl (by decide)).1,
   (enqueue_future_alloc_failure poolRun emptyHeap 9 9 rfl (by decide)).2.1,
   (enqueue_future_alloc_failure poolRun emptyHeap 9 9 rfl (by decide)).2.2.2.1⟩

/- ### C1: FIFO ring buffer -/

/-- Distinct positions of the ring buffer: while fewer than `max` slots
are used, the slot of queued element `i` never aliases the tail slot. -/
lemma ring_index_ne (max first i count : Nat) (hic : i < count) (hcm : count < max) :
    (first + i) % max ≠ (first + count) % max := by
  intro h
  have h2 : Nat.ModEq max i count := Nat.ModEq.add_left_cancel' first h
  have h3 : max ∣ count - i := (Nat.modEq_iff_dvd' (le_of_lt hic)).mp h2
  have h4 : max ≤ count - i := Nat.le_of_dvd (by omega) h3
  omega

/-- Writing the tail slot and bumping the count appends one element to
the abstract queue contents. -/
lemma queueList_enqueue (p : CpoolState) (w : cpool_work)
    (hcm : p.job_count < p.max_jobs) :
    queueList { p with
        jobs := setJob p.jobs ((p.job_first + p.job_count) % p.max_jobs) w
        job_count := p.job_count + 1 } = queueList p ++ [w] := by
  unfold queueList
  simp only [List.range_succ, List.map_append]
  congr 1
  · apply List.map_congr_left
    intro i hi
    have hic : i < p.job_count := List.mem_range.mp hi
    unfold setJob
    rw [if_neg]
    exact ring_index_ne _ _ _ _ hic hcm
  · simp [setJob]

/-- Popping advances the abstract queue contents by one: the popped slot
is the front of the abstract queue and the remaining contents are its
tail. -/
lemma queueList_pop (p : CpoolState) (hc : p.job_count ≠ 0)
    (hf : p.job_first < p.max_jobs) :
    (queueList p).head? = some (p.jobs p.job_first) ∧
    queueList (worker_pop_state p) = (queueList p).tail := by
  obtain ⟨k, hk⟩ : ∃ k, p.job_count = k + 1 := ⟨p.job_count - 1, by omega⟩
  unfold queueList worker_pop_state
  constructor
  · rw [hk, List.range_succ_eq_map]
    simp [Nat.mod_eq_of_lt hf]
  · simp only [hk]
    rw [List.range_succ_eq_map]
    simp only [Nat.add_sub_cancel, List.map_cons, List.map_map, List.tail_cons]
    apply List.map_congr_left
    intro i hi
    simp only [Function.comp]
    rw [Nat.mod_add_mod]
    have harith : p.job_first + 1 + i = p.job_first + (i + 1) := by omega
    rw [harith]

/-- C1: the job queue is a FIFO ring buffer.  A successful enqueue (pool
not stopped, queue not full) returns 0, writes the job slot at
`(job_first + job_count) % max_jobs`, increments the count, leaves the
head unchanged, and appends the job to the abstract queue contents; a
worker pop takes exactly the slot at `job_first`, advances the head
modulo the capacity, decrements the count, and removes the front of the
abstract queue contents — so jobs are handed to workers in submission
order. -/
theorem fifo_ring_buffer :
    (∀ (p : CpoolState) (h : Heap) (func data : Nat) (wantsFuture allocOk : Bool),
      p.stop = false → p.job_count < p.max_jobs →
      (cpool_enqueue p h func data wantsFuture allocOk).ret = 0 ∧
      (cpool_enqueue p h func data wantsFuture allocOk).pool.job_first = p.job_first ∧
      (cpool_enqueue p h func data wantsFuture allocOk).pool.job_count = p.job_count + 1 ∧
      (cpool_enqueue p h func data wantsFuture allocOk).pool.jobs
          ((p.job_first + p.job_count) % p.max_jobs) =
        { func := func, data := data
          future := (cpool_enqueue p h func data wantsFuture allocOk).futureOut } ∧
      queueList (cpool_enqueue p h func data wantsFuture allocOk).pool =
        queueList p ++ [{ func := func, data := data
                          future := (cpool_enqueue p h func data wantsFuture allocOk).futureOut }]) ∧
    (∀ p : CpoolState, p.job_count ≠ 0 → p.job_first < p.max_jobs →
      worker_poll p = WorkerAction.run (p.jobs p.job_first) ∧
      (worker_pop_state p).job_first = (p.job_first + 1) % p.max_jobs ∧
      (worker_pop_state p).job_count = p.job_count - 1 ∧
      (queueList p).head? = some (p.jobs p.job_first) ∧
      queueList (worker_pop_state p) = (queueList p).tail) := by
  constructor
  · intro p h func data wantsFuture allocOk hs hcm
    have hpool : (cpool_enqueue p h func data wantsFuture allocOk).pool =
        { p with
          jobs := setJob p.jobs ((p.job_first + p.job_count) % p.max_jobs)
            { func := func, data := data
              future := (cpool_enqueue p h func data wantsFuture allocOk).futureOut }
          job_count := p.job_count + 1 } := by
      simp [cpool_enqueue, hs]
    refine ⟨?_, ?_, ?_, ?_, ?_⟩
    · simp [cpool_enqueue, hs]
    · rw [hpool]
    · rw [hpool]
    · rw [hpool]
      simp [setJob]
    · rw [hpool, queueList_enqueue _ _ hcm]
  · intro p hc hf
    refine ⟨?_, rfl, rfl, (queueList_pop p hc hf).1, (queueList_pop p hc hf).2⟩
    simp [worker_poll, hc]

/-- Witness for C1 at the concrete running pool. -/
theorem fifo_ring_buffer_witness :
    (cpool_enqueue poolRun emptyHeap 1 2 false false).ret = 0 ∧
    queueList (cpool_enqueue poolRun emptyHeap 1 2 false false).pool =
      queueList poolRun ++ [{ func := 1, data := 2
                              future := (cpool_enqueue poolRun emptyHeap 1 2 false false).futureOut }] ∧
    queueList (worker_pop_state poolRun) = (queueList poolRun).tail :=
  ⟨(fifo_ring_buffer.1 poolRun emptyHeap 1 2 false false rfl (by decide)).1,
   (fifo_ring_buffer.1 poolRun emptyHeap 1 2 false false rfl (by decide)).2.2.2.2,
   (fifo_ring_buffer.2 poolRun (by decide) (by decide)).2.2.2.2⟩

/- ### C9: every operation preserves the pool-state invariant -/

/-- Lifecycle status of one worker thread. -/
inductive WStatus where
  | idle
  | running
  | exited
deriving DecidableEq, Repr

/-- Whole system: the shared pool state plus the status of each worker. -/
structure Sys where
  pool : CpoolState
  workers : List WStatus

/-- Number of workers currently executing a callable. -/
def runningCount (ws : List WStatus) : Nat :=
  ws.countP (fun w => w == WStatus.running)

/-- The spec's pool-state invariant:
`0 ≤ working_count ≤ nb_workers` and `0 ≤ queue.count ≤ queue.capacity`. -/
def SpecInv (p : CpoolState) : Prop :=
  0 ≤ p.nb_working ∧ p.nb_working ≤ p.nb_workers ∧
  0 ≤ p.job_count ∧ p.job_count ≤ p.max_jobs

/-- The inductive system invariant: one status per worker, `nb_working`
counts exactly the running workers, and the queue count is within the
capacity. -/
def SysInv (s : Sys) : Prop :=
  s.workers.length = s.pool.nb_workers ∧
  s.pool.nb_working = runningCount s.workers ∧
  s.pool.job_count ≤ s.pool.max_jobs

/-- One step of any public operation or of the worker loop, each using
the embedded operation on the pool state: a successful enqueue (taken
when its wait loop exited non-stopped, hence non-full), an enqueue
observing stop (no-op on the pool), `cpool_stop`, a worker popping a
job, a worker finishing a job, and a worker exiting. -/
inductive Step : Sys → Sys → Prop where
  | enqueue (s : Sys) (h : Heap) (func data : Nat) (wantsFuture allocOk : Bool) :
      s.pool.stop = false → s.pool.job_count < s.pool.max_jobs →
      Step s { pool := (cpool_enqueue s.pool h func data wantsFuture allocOk).pool
               workers := s.workers }
  | enqueueStopped (s : Sys) (h : Heap) (func data : Nat) (wantsFuture allocOk : Bool) :
      s.pool.stop = true →
      Step s { pool := (cpool_enqueue s.pool h func data wantsFuture allocOk).pool
               workers := s.workers }
  | stopReq (s : Sys) :
      Step s { pool := cpool_stop s.pool, workers := s.workers }
  | pop (s : Sys) (i : Nat) :
      s.workers[i]? = some WStatus.idle → s.pool.job_count ≠ 0 →
      Step s { pool := worker_pop_state s.pool
               workers := s.workers.set i WStatus.running }
  | finish (s : Sys) (i : Nat) :
      s.workers[i]? = some WStatus.running →
      Step s { pool := (worker_complete s.pool).1
               workers := s.workers.set i WStatus.idle }
  | wexit (s : Sys) (i : Nat) :
      s.workers[i]? = some WStatus.idle → s.pool.stop = true →
      s.pool.job_count = 0 →
      Step s { pool := s.pool, workers := s.workers.set i WStatus.exited }

lemma enqueue_pool_fields (p : CpoolState) (h : Heap) (func data : Nat)
    (wf ao : Bool) (hs : p.stop = false) :
    (cpool_enqueue p h func data wf ao).pool.nb_workers = p.nb_workers ∧
    (cpool_enqueue p h func data wf ao).pool.max_jobs = p.max_jobs ∧
    (cpool_enqueue p h func data wf ao).pool.job_count = p.job_count + 1 ∧
    (cpool_enqueue p h func data wf ao).pool.nb_working = p.nb_working ∧
    (cpool_enqueue p h func data wf ao).pool.stop = p.stop := by
  simp [cpool_enqueue, hs]

lemma enqueue_pool_stopped (p : CpoolState) (h : Heap) (func data : Nat)
    (wf ao : Bool) (hs : p.stop = true) :
    (cpool_enqueue p h func data wf ao).pool = p := by
  simp [cpool_enqueue, hs]

lemma runningCount_le_length (ws : List WStatus) : runningCount ws ≤ ws.length :=
  List.countP_le_length _

lemma runningCount_set (ws : List WStatus) :
    ∀ (i : Nat) (a b : WStatus), ws[i]? = some a →
      runningCount (ws.set i b) + (if a == WStatus.running then 1 else 0) =
        runningCount ws + (if b == WStatus.running then 1 else 0) := by
  induction ws with
  | nil => intro i a b hget; simp at hget
  | cons x xs ih =>
    intro i a b hget
    cases i with
    | zero =>
      simp at hget
      subst hget
      simp only [List.set, runningCount, List.countP_cons]
      split_ifs <;> simp_all
    | succ n =>
      simp at hget
      have h2 := ih n a b hget
      simp only [List.set, runningCount, List.countP_cons] at h2 ⊢
      split_ifs at h2 ⊢ <;> simp_all

lemma runningCount_pos (ws : List WStatus) :
    ∀ i : Nat, ws[i]? = some WStatus.running → 1 ≤ runningCount ws := by
  induction ws with
  | nil => intro i h; simp at h
  | cons x xs ih =>
    intro i h
    cases i with
    | zero =>
      simp at h
      subst h
      simp [runningCount, List.countP_cons]
    | succ n =>
      simp at h
      have h1 := ih n h
      simp only [runningCount, List.countP_cons] at h1 ⊢
      split_ifs <;> omega

/-- C9: every step of the system — enqueue (successful or rejected),
stop, worker pop, worker completion, worker exit — preserves the system
invariant; the preserved state satisfies the spec invariant
`0 ≤ working_count ≤ nb_workers ∧ 0 ≤ queue.count ≤ queue.capacity`; and
once the stop flag is true, no step ever makes it false again. -/
theorem pool_invariant_preserved (s s2 : Sys) (hinv : SysInv s) (hstep : Step s s2) :
    SysInv s2 ∧ SpecInv s2.pool ∧ (s.pool.stop = true → s2.pool.stop = true) := by
  obtain ⟨hlen, hwork, hcap⟩ := hinv
  have main : SysInv s2 ∧ (s.pool.stop = true → s2.pool.stop = true) := by
    cases hstep with
    | enqueue h func data wantsFuture allocOk hs hc =>
      obtain ⟨e1, e2, e3, e4, e5⟩ :=
        enqueue_pool_fields s.pool h func data wantsFuture allocOk hs
      refine ⟨⟨?_, ?_, ?_⟩, ?_⟩
      · simpa [e1] using hlen
      · simpa [e4] using hwork
      · simp only [e3, e2]; omega
      · intro hstop; simpa [e5] using hstop
    | enqueueStopped h func data wantsFuture allocOk hs =>
      have hp := enqueue_pool_stopped s.pool h func data wantsFuture allocOk hs
      refine ⟨⟨?_, ?_, ?_⟩, ?_⟩
      · simpa [hp] using hlen
      · simpa [hp] using hwork
      · simpa [hp] using hcap
      · intro hstop; simpa [hp] using hstop
    | stopReq =>
      exact ⟨⟨hlen, hwork, hcap⟩, fun _ => rfl⟩
    | pop i hidle hcnt =>
      have h2 := runningCount_set s.workers i WStatus.idle WStatus.running hidle
      simp at h2
      refine ⟨⟨?_, ?_, ?_⟩, ?_⟩
      · simpa [List.length_set] using hlen
      · show s.pool.nb_working + 1 = runningCount (s.workers.set i WStatus.running)
        omega
      · show s.pool.job_count - 1 ≤ s.pool.max_jobs
        omega
      · intro hstop; exact hstop
    | finish i hrun =>
      have h2 := runningCount_set s.workers i WStatus.running WStatus.idle hrun
      simp at h2
      have h3 := runningCount_pos s.workers i hrun
      refine ⟨⟨?_, ?_, ?_⟩, ?_⟩
      · simpa [List.length_set] using hlen
      · show s.pool.nb_working - 1 = runningCount (s.workers.set i WStatus.idle)
        omega
      · exact hcap
      · intro hstop; exact hstop
    | wexit i hidle hs hc0 =>
      have h2 := runningCount_set s.workers i WStatus.idle WStatus.exited hidle
      simp at h2
      refine ⟨⟨?_, ?_, ?_⟩, ?_⟩
      · simpa [List.length_set] using hlen
      · show s.pool.nb_working = runningCount (s.workers.set i WStatus.exited)
        omega
      · exact hcap
      · intro hstop; exact hstop
  obtain ⟨⟨hlen2, hwork2, hcap2⟩, hmono⟩ := main
  refine ⟨⟨hlen2, hwork2, hcap2⟩, ⟨Nat.zero_le _, ?_, Nat.zero_le _, hcap2⟩, hmono⟩
  rw [hwork2, ← hlen2]
  exact runningCount_le_length _

def sysIdle : Sys := { pool := poolIdle, workers := [WStatus.idle] }

/-- Witness for C9: applying the theorem to the one-worker idle system
and a `cpool_stop` step. -/
theorem pool_invariant_preserved_witness :
    SysInv { pool := cpool_stop poolIdle, workers := [WStatus.idle] } ∧
    SpecInv (Sys.pool { pool := cpool_stop poolIdle, workers := [WStatus.idle] }) ∧
    (sysIdle.pool.stop = true →
      (Sys.pool { pool := cpool_stop poolIdle, workers := [WStatus.idle] }).stop = true) :=
  pool_invariant_preserved sysIdle
    { pool := cpool_stop poolIdle, workers := [WStatus.idle] }
    ⟨rfl, rfl, by decide⟩ (Step.stopReq sysIdle)

/- ### C6: atomic failure of cpool_create -/

/-- Oracle for the fallible calls made by `cpool_create`: each Bool says
whether the corresponding allocation / initialization succeeds, and
`threadOk i` whether `thrd_create` succeeds for worker `i`. -/
structure CreateEnv where
  poolAllocOk : Bool
  workersAllocOk : Bool
  jobsAllocOk : Bool
  mutexOk : Bool
  condOk : Bool
  condEnqOk : Bool
  condIdleOk : Bool
  threadOk : Nat → Bool

/-- The launch loop of `cpool_create`: count consecutive successful
`thrd_create` calls starting at worker `i`, stopping at the first
failure (the loop `break`s there). -/
def threadSuccessFrom (ok : Nat → Bool) : Nat → Nat → Nat
  | _, 0 => 0
  | i, fuel + 1 => if ok i then threadSuccessFrom ok (i + 1) fuel + 1 else 0

def threadSuccessCount (ok : Nat → Bool) (n : Nat) : Nat := threadSuccessFrom ok 0 n

/-- Snapshot of what `cpool_create` leaves behind when it returns: the
returned pool (or none), which resources are still allocated, how many
worker threads were started and how many were joined, and whether the
`assert` in the create path was violated. -/
structure CreateRes where
  pool : Option CpoolState
  poolMem : Bool
  workersMem : Bool
  jobsMem : Bool
  mutexLive : Bool
  condLive : Bool
  condEnqLive : Bool
  condIdleLive : Bool
  threadsStarted : Nat
  threadsJoined : Nat
  assertFailed : Bool

/-- Pool fields as initialized by `cpool_create` before launching. -/
def initPool (nb_workers max_jobs : Nat) : CpoolState :=
  { nb_workers := nb_workers, max_jobs := max_jobs, jobs := fun _ => default
    job_first := 0, job_count := 0, nb_working := 0, stop := false }

/-- Result of a failed create after full unwinding: nothing is returned
and nothing stays allocated. -/
def allFreed : CreateRes :=
  { pool := none, poolMem := false, workersMem := false, jobsMem := false
    mutexLive := false, condLive := false, condEnqLive := false
    condIdleLive := false, threadsStarted := 0, threadsJoined := 0
    assertFailed := false }

/-- Result of a successful create: the pool is returned owning all of
its resources, with all `n` workers started. -/
def createdOk (nb_workers max_jobs : Nat) : CreateRes :=
  { pool := some (initPool nb_workers max_jobs), poolMem := true
    workersMem := true, jobsMem := true, mutexLive := true, condLive := true
    condEnqLive := true, condIdleLive := true, threadsStarted := nb_workers
    threadsJoined := 0, assertFailed := false }

/-- `cpool_create` of the future-enabled translation unit: on any
allocation or primitive-init failure it unwinds the goto chain (all
earlier resources released) and returns NULL; if some `thrd_create`
fails, it sets the stop flag, broadcasts, joins the started workers,
releases everything, and returns NULL. -/
def cpool_create_threadsafe (nb_workers max_jobs : Nat) (env : CreateEnv) : CreateRes :=
  if nb_workers = 0 ∨ max_jobs = 0 then allFreed
  else if env.poolAllocOk = false then allFreed
  else if env.workersAllocOk = false then allFreed
  else if env.jobsAllocOk = false then allFreed
  else if env.mutexOk = false then allFreed
  else if env.condOk = false then allFreed
  else if env.condEnqOk = false then allFreed
  else if env.condIdleOk = false then allFreed
  else
    if threadSuccessCount env.threadOk nb_workers = nb_workers then
      createdOk nb_workers max_jobs
    else
      { allFreed with
        threadsStarted := threadSuccessCount env.threadOk nb_workers
        threadsJoined := threadSuccessCount env.threadOk nb_workers }

/-- `cpool_create` of src/cpool.c: identical up to the launch loop, but
on a `thrd_create` failure it performs no cleanup — the code carries
`//FIXME: clean-up threads in case of failure!` and
`assert(thread_success_count == nb_workers)` — and (with assertions
disabled) falls through to return the partially-started pool. -/
def cpool_create_c (nb_workers max_jobs : Nat) (env : CreateEnv) : CreateRes :=
  if nb_workers = 0 ∨ max_jobs = 0 then allFreed
  else if env.poolAllocOk = false then allFreed
  else if env.workersAllocOk = false then allFreed
  else if env.jobsAllocOk = false then allFreed
  else if env.mutexOk = false then allFreed
  else if env.condOk = false then allFreed
  else if env.condEnqOk = false then allFreed
  else if env.condIdleOk = false then allFreed
  else
    { createdOk nb_workers max_jobs with
      threadsStarted := threadSuccessCount env.threadOk nb_workers
      assertFailed :=
        decide (threadSuccessCount env.threadOk nb_workers ≠ nb_workers) }

/-- The environment in which starting the second worker thread fails. -/
def envThreadFail : CreateEnv :=
  { poolAllocOk := true, workersAllocOk := true, jobsAllocOk := true
    mutexOk := true, condOk := true, condEnqOk := true, condIdleOk := true
    threadOk := fun i => i == 0 }

/-- C6 failing input: `cpool_create(2, 1)` where the second
`thrd_create` fails.  The src/cpool.c version trips its own assert and
(assertions disabled) returns a non-NULL pool with only 1 of 2 workers
started and nothing joined or released — not the claimed atomic
failure.  The future-enabled version of the same repository behaves as
the claim states: it joins the started worker, releases every resource,
and returns NULL — showing the claim matches the intent recorded in
src/cpool.c's own FIXME comment. -/
theorem create_thread_failure_divergence :
    (cpool_create_c 2 1 envThreadFail).assertFailed = true ∧
    (cpool_create_c 2 1 envThreadFail).pool.isSome = true ∧
    (cpool_create_c 2 1 envThreadFail).threadsStarted = 1 ∧
    (cpool_create_c 2 1 envThreadFail).threadsJoined = 0 ∧
    (cpool_create_c 2 1 envThreadFail).poolMem = true ∧
    (cpool_create_threadsafe 2 1 envThreadFail).pool.isNone = true ∧
    (cpool_create_threadsafe 2 1 envThreadFail).threadsStarted = 1 ∧
    (cpool_create_threadsafe 2 1 envThreadFail).threadsJoined = 1 ∧
    (cpool_create_threadsafe 2 1 envThreadFail).poolMem = false ∧
    (cpool_create_threadsafe 2 1 envThreadFail).workersMem = false ∧
    (cpool_create_threadsafe 2 1 envThreadFail).jobsMem = false ∧
    (cpool_create_threadsafe 2 1 envThreadFail).mutexLive = false ∧
    (cpool_create_threadsafe 2 1 envThreadFail).condLive = false ∧
    (cpool_create_threadsafe 2 1 envThreadFail).condEnqLive = false ∧
    (cpool_create_threadsafe 2 1 envThreadFail).condIdleLive = false := by
  decide
